import Mathlib

/-!
# gnostic generator driver (`generator/main.go`)

A shallow embedding of the driver of the gnostic code generator: the
command-line flag loop, the file-level proto options, the pattern table
handed to the Domain, and the sequence of calls `main` makes to its
collaborators, followed by the properties proved about them.
-/

namespace Generator

/-! ## Configuration selected by the flag loop -/

/-- The four local variables of `main` that the flag loop assigns. -/
structure Config where
  input : String
  filename : String
  proto_packagename : String
  extension_name : String
  deriving DecidableEq, Repr

/-- Values of the four variables before the loop (lines 90-93). -/
def defaultConfig : Config :=
  { input := "openapi-2.0.json"
    filename := "OpenAPIv2"
    proto_packagename := "openapi.v2"
    extension_name := "vendorExtension" }

/-- One iteration of `for i, arg := range os.Args` (lines 96-108). -/
def flagStep (c : Config) (i : Nat) (arg : String) : Config :=
  if i = 0 then
    c -- skip the tool name
  else if arg = "--v2" then
    { c with
      input := "openapi-2.0.json"
      filename := "OpenAPIv2"
      proto_packagename := "openapi.v2"
      extension_name := "vendorExtension" }
  else if arg = "--v3" then
    { c with
      input := "openapi-3.0.json"
      filename := "OpenAPIv3"
      proto_packagename := "openapi.v3"
      extension_name := "specificationExtension" }
  else
    c

/-- The loop over `os.Args`, started at index `i` with the variables `c`. -/
def flagLoop (c : Config) (i : Nat) : List String → Config
  | [] => c
  | arg :: rest => flagLoop (flagStep c i arg) (i + 1) rest

/-- Lines 90-109 of `main`: the variables after the flag loop. -/
def selectConfig (args : List String) : Config :=
  flagLoop defaultConfig 0 args

/-- The v2 tuple named by the specification. -/
def v2Config : Config :=
  ⟨"openapi-2.0.json", "OpenAPIv2", "openapi.v2", "vendorExtension"⟩

/-- The v3 tuple named by the specification. -/
def v3Config : Config :=
  ⟨"openapi-3.0.json", "OpenAPIv3", "openapi.v3", "specificationExtension"⟩

/-- An argument the flag loop reacts to. -/
def isVersionFlag (arg : String) : Bool :=
  arg = "--v2" || arg = "--v3"

/-- The last version flag among the arguments after the tool name. -/
def lastVersionFlag (args : List String) : Option String :=
  (args.tail.filter isVersionFlag).getLast?

/-- The variables after the loop has run over the arguments that follow the
tool name, given the last version flag among them; `c` holds the variables
before. -/
def configAfter (c : Config) : Option String → Config
  | none => c
  | some flag => if flag = "--v3" then v3Config else v2Config

/-! ## File-level proto options -/

/-- The constant `LICENSE` (lines 28-41). -/
def LICENSE : String :=
  "" ++
  "// Copyright 2016 Google Inc. All Rights Reserved.\n" ++
  "//\n" ++
  "// Licensed under the Apache License, Version 2.0 (the \"License\");\n" ++
  "// you may not use this file except in compliance with the License.\n" ++
  "// You may obtain a copy of the License at\n" ++
  "//\n" ++
  "//    http://www.apache.org/licenses/LICENSE-2.0\n" ++
  "//\n" ++
  "// Unless required by applicable law or agreed to in writing, software\n" ++
  "// distributed under the License is distributed on an \"AS IS\" BASIS,\n" ++
  "// WITHOUT WARRANTIES OR CONDITIONS OF ANY KIND, either express or implied.\n" ++
  "// See the License for the specific language governing permissions and\n" ++
  "// limitations under the License.\n"

/-- The struct `ProtoOption` (lines 43-47). -/
structure ProtoOption where
  Name : String
  Value : String
  Comment : String
  deriving DecidableEq, Repr

/-- The function `protoOptions` (lines 49-84). -/
def protoOptions (packageName : String) : List ProtoOption :=
  [ { Name := "java_multiple_files"
      Value := "true"
      Comment := "// This option lets the proto compiler generate Java code inside the package\n" ++
        "// name (see below) instead of inside an outer class. It creates a simpler\n" ++
        "// developer experience by reducing one-level of name nesting and be\n" ++
        "// consistent with most programming languages that don't support outer classes." },
    { Name := "java_outer_classname"
      Value := "OpenAPIProto"
      Comment := "// The Java outer classname should be the filename in UpperCamelCase. This\n" ++
        "// class is only used to hold proto descriptor, so developers don't need to\n" ++
        "// work with it directly." },
    { Name := "java_package"
      Value := "org." ++ packageName
      Comment := "// The Java package name must be proto package name with proper prefix." },
    { Name := "objc_class_prefix"
      Value := "OAS"
      Comment := "// A reasonable prefix for the Objective-C symbols generated from the package.\n" ++
        "// It should at a minimum be 3 characters long, all uppercase, and convention\n" ++
        "// is to use an abbreviation of the package name. Something short, but\n" ++
        "// hopefully unique enough to not conflict with things that may come along in\n" ++
        "// the future. 'GPB' is reserved for the protocol buffer implementation itself." } ]

/-- Value of the first option called `name`, as a reader of the options
block finds it. -/
def optionValue (name : String) (opts : List ProtoOption) : Option String :=
  (opts.find? (fun o => o.Name = name)).map (fun o => o.Value)

/-- Worker of `upperCamelCase`; `up` tells that the next letter starts a
word. -/
def upperCamelCaseFrom : Bool → List Char → List Char
  | _, [] => []
  | up, c :: rest =>
    if c.isAlphanum then
      (if up then c.toUpper else c) :: upperCamelCaseFrom false rest
    else
      upperCamelCaseFrom true rest

/-- The UpperCamelCase form of a name, in the words of the option's comment
("the filename in UpperCamelCase"): the words, which the characters other
than letters and digits separate, joined with their first letter in upper
case. -/
def upperCamelCase (name : String) : String :=
  ⟨upperCamelCaseFrom true name.data⟩

/-! ## The pattern table -/

/-- A Go `map[string]string`, given by the key/value pairs of its composite
literal (whose constant keys Go requires to be distinct). The position of a
pair in the list carries no meaning: see `GoMap.rangeOrder`. -/
abbrev GoMap := List (String × String)

/-- Map indexing `m[key]` with the comma-ok result. -/
def GoMap.get (m : GoMap) (key : String) : Option String :=
  (m.find? (fun kv => kv.1 = key)).map (fun kv => kv.2)

/-- That a `for k, v := range m` statement may visit the entries of `m` in
the sequence `order`. The Go language specification leaves the iteration
order over a map unspecified, and it may differ from one iteration to the
next: every arrangement of the entries is possible. -/
def GoMap.rangeOrder (m : GoMap) (order : List (String × String)) : Prop :=
  order.Perm m

instance (m : GoMap) (order : List (String × String)) : Decidable (m.rangeOrder order) :=
  inferInstanceAs (Decidable (order.Perm m))

/-- The map literal assigned to `cc.PatternNames` (lines 131-135). -/
def patternNames (extension_name : String) : GoMap :=
  [ ("^x-", extension_name),
    ("^/", "path"),
    ("^([0-9]{3})$|^(default)$", "responseCode") ]

/-- The six arrangements of the three entries of the table. -/
def patternNamesArrangements (extension_name : String) : List (List (String × String)) :=
  let x := ("^x-", extension_name)
  let p := ("^/", "path")
  let r := ("^([0-9]{3})$|^(default)$", "responseCode")
  [[x, p, r], [x, r, p], [p, x, r], [p, r, x], [r, x, p], [r, p, x]]

/-! ## The driver -/

/-- Worker of `strings_Replace` for a non-empty `old`: `skip` counts the
characters of a replaced occurrence still to be dropped. -/
def replaceFrom (old new : List Char) : Nat → List Char → List Char
  | _, [] => []
  | skip + 1, _ :: rest => replaceFrom old new skip rest
  | 0, c :: rest =>
    if old.isPrefixOf (c :: rest) then
      new ++ replaceFrom old new (old.length - 1) rest
    else
      c :: replaceFrom old new 0 rest

/-- Go's `strings.Replace(s, old, new, -1)`: every non-overlapping
occurrence of `old` replaced, left to right; an empty `old` matches before
every character and at the end. -/
def strings_Replace (s old new : String) : String :=
  if old.data = [] then
    ⟨new.data ++ s.data.flatMap (fun c => c :: new.data)⟩
  else
    ⟨replaceFrom old.data new.data 0 s.data⟩

/-- The collaborators `main` calls, as transformers of the world `W` (heap
and file system). `S` is a `*jsonschema.Schema`, `D` a `*Domain`, `E` a
non-nil `error`; an `Option E` result is Go's `error`, `none` being `nil`. -/
structure Env (W S D E : Type) where
  /-- `jsonschema.NewSchemaFromFile(filename)` -/
  NewSchemaFromFile : String → W → Except E S × W
  /-- `schema.ResolveRefs()` -/
  ResolveRefs : S → W → W
  /-- `schema.ResolveAllOfs()` -/
  ResolveAllOfs : S → W → W
  /-- `NewDomain(schema)` -/
  NewDomain : S → W → D × W
  /-- the assignment `cc.PatternNames = table` -/
  setPatternNames : D → GoMap → W → W
  /-- `cc.build()` -/
  build : D → W → Option E × W
  /-- `os.MkdirAll(path, perm)` -/
  MkdirAll : String → Nat → W → Option E × W
  /-- `cc.generateProto(packageName, license, options)` -/
  generateProto : D → String → String → List ProtoOption → W → String × W
  /-- `ioutil.WriteFile(filename, data, perm)` -/
  WriteFile : String → String → Nat → W → Option E × W
  /-- `cc.generateCompiler(packageName, license)` -/
  generateCompiler : D → String → String → W → String × W
  /-- `runtime.GOROOT()` -/
  GOROOT : W → String
  /-- `exec.Command(name, args...).Run()` -/
  Run : String → List String → W → Option E × W

instance {E S : Type} [DecidableEq E] [DecidableEq S] : DecidableEq (Except E S)
  | .ok a, .ok b => if h : a = b then isTrue (by rw [h]) else isFalse (by simp [h])
  | .error a, .error b => if h : a = b then isTrue (by rw [h]) else isFalse (by simp [h])
  | .ok _, .error _ => isFalse (by simp)
  | .error _, .ok _ => isFalse (by simp)

/-- One call made by `main`, with its arguments and its result. -/
inductive Event (S D E : Type) where
  | NewSchemaFromFile (filename : String) (result : Except E S)
  | ResolveRefs (schema : S)
  | ResolveAllOfs (schema : S)
  | NewDomain (schema : S) (result : D)
  | setPatternNames (cc : D) (table : GoMap)
  | build (cc : D) (err : Option E)
  | MkdirAll (path : String) (perm : Nat) (err : Option E)
  | generateProto (cc : D) (packageName license : String)
      (options : List ProtoOption) (result : String)
  | WriteFile (filename data : String) (perm : Nat) (err : Option E)
  | generateCompiler (cc : D) (packageName license : String) (result : String)
  | Run (name : String) (args : List String) (err : Option E)
  deriving DecidableEq

/-- The Domain an emitter call (`generateProto`, `generateCompiler`) is made
on; `none` for every other call. -/
def Event.emitterOf? {S D E : Type} : Event S D E → Option D
  | .generateProto cc _ _ _ _ => some cc
  | .generateCompiler cc _ _ _ => some cc
  | _ => none

/-- The non-nil error a call returned, if it returned one. -/
def Event.err? {S D E : Type} : Event S D E → Option E
  | .NewSchemaFromFile _ (.error e) => some e
  | .build _ e => e
  | .MkdirAll _ _ e => e
  | .WriteFile _ _ _ e => e
  | .Run _ _ e => e
  | _ => none

/-- Whether the call runs a command, as the formatting step does. -/
def Event.isRun {S D E : Type} : Event S D E → Bool
  | .Run _ _ _ => true
  | _ => false

/-- The world together with the calls made so far, oldest first. -/
structure St (W S D E : Type) where
  world : W
  trace : List (Event S D E)

/-- How a run of `main` ends. -/
inductive Outcome (E : Type) where
  | returned
  | panicked (err : E)
  deriving DecidableEq

section Calls

variable {W S D E : Type} (env : Env W S D E)

def callNewSchemaFromFile (filename : String) (st : St W S D E) :
    Except E S × St W S D E :=
  let r := env.NewSchemaFromFile filename st.world
  (r.1, ⟨r.2, st.trace ++ [.NewSchemaFromFile filename r.1]⟩)

def callResolveRefs (schema : S) (st : St W S D E) : St W S D E :=
  ⟨env.ResolveRefs schema st.world, st.trace ++ [.ResolveRefs schema]⟩

def callResolveAllOfs (schema : S) (st : St W S D E) : St W S D E :=
  ⟨env.ResolveAllOfs schema st.world, st.trace ++ [.ResolveAllOfs schema]⟩

def callNewDomain (schema : S) (st : St W S D E) : D × St W S D E :=
  let r := env.NewDomain schema st.world
  (r.1, ⟨r.2, st.trace ++ [.NewDomain schema r.1]⟩)

def callSetPatternNames (cc : D) (table : GoMap) (st : St W S D E) : St W S D E :=
  ⟨env.setPatternNames cc table st.world, st.trace ++ [.setPatternNames cc table]⟩

def callBuild (cc : D) (st : St W S D E) : Option E × St W S D E :=
  let r := env.build cc st.world
  (r.1, ⟨r.2, st.trace ++ [.build cc r.1]⟩)

def callMkdirAll (path : String) (perm : Nat) (st : St W S D E) :
    Option E × St W S D E :=
  let r := env.MkdirAll path perm st.world
  (r.1, ⟨r.2, st.trace ++ [.MkdirAll path perm r.1]⟩)

def callGenerateProto (cc : D) (packageName license : String)
    (options : List ProtoOption) (st : St W S D E) : String × St W S D E :=
  let r := env.generateProto cc packageName license options st.world
  (r.1, ⟨r.2, st.trace ++ [.generateProto cc packageName license options r.1]⟩)

def callWriteFile (filename data : String) (perm : Nat) (st : St W S D E) :
    Option E × St W S D E :=
  let r := env.WriteFile filename data perm st.world
  (r.1, ⟨r.2, st.trace ++ [.WriteFile filename data perm r.1]⟩)

def callGenerateCompiler (cc : D) (packageName license : String)
    (st : St W S D E) : String × St W S D E :=
  let r := env.generateCompiler cc packageName license st.world
  (r.1, ⟨r.2, st.trace ++ [.generateCompiler cc packageName license r.1]⟩)

def callRun (name : String) (args : List String) (st : St W S D E) :
    Option E × St W S D E :=
  let r := env.Run name args st.world
  (r.1, ⟨r.2, st.trace ++ [.Run name args r.1]⟩)

/-- The function `main` (lines 86-169), run on the argument list `args` in
the world `w`: how it ends, the final world and the calls it made. -/
def main (args : List String) (w : W) : Outcome E × St W S D E :=
  let cfg := selectConfig args
  let go_packagename := strings_Replace cfg.proto_packagename "." "_"
  match callNewSchemaFromFile env "schema.json" ⟨w, []⟩ with
  | (.error err, st) => (.panicked err, st)
  | (.ok base_schema, st) =>
  let st := callResolveRefs env base_schema st
  let st := callResolveAllOfs env base_schema st
  match callNewSchemaFromFile env cfg.input st with
  | (.error err, st) => (.panicked err, st)
  | (.ok openapi_schema, st) =>
  let st := callResolveRefs env openapi_schema st
  let st := callResolveAllOfs env openapi_schema st
  -- build a simplified model of the types described by the schema
  match callNewDomain env openapi_schema st with
  | (cc, st) =>
  let st := callSetPatternNames env cc (patternNames cfg.extension_name) st
  match callBuild env cc st with
  | (some err, st) => (.panicked err, st)
  | (none, st) =>
  -- `if false { ... }` (lines 141-143) never runs
  -- ensure that the target directory exists
  match callMkdirAll env cfg.filename 0o755 st with
  | (some err, st) => (.panicked err, st)
  | (none, st) =>
  -- generate the protocol buffer description
  match callGenerateProto env cc cfg.proto_packagename LICENSE
      (protoOptions cfg.proto_packagename) st with
  | (proto, st) =>
  let proto_filename := cfg.filename ++ "/" ++ cfg.filename ++ ".proto"
  match callWriteFile env proto_filename proto 0o644 st with
  | (some err, st) => (.panicked err, st)
  | (none, st) =>
  -- generate the compiler
  match callGenerateCompiler env cc go_packagename LICENSE st with
  | (compiler, st) =>
  let go_filename := cfg.filename ++ "/" ++ cfg.filename ++ ".go"
  match callWriteFile env go_filename compiler 0o644 st with
  | (some err, st) => (.panicked err, st)
  | (none, st) =>
  -- format the compiler; the error assigned to `err` is not examined
  match callRun env (env.GOROOT st.world ++ "/bin/gofmt") ["-w", go_filename] st with
  | (_, st) => (.returned, st)

end Calls

/-! ## Shapes of a run -/

section Shapes

variable {W S D E : Type}

/-- The calls of a run of `main` that returns. -/
def completedTrace (cfg : Config) (base_schema openapi_schema : S) (cc : D)
    (proto compiler goroot : String) (fmtErr : Option E) : List (Event S D E) :=
  [ .NewSchemaFromFile "schema.json" (.ok base_schema),
    .ResolveRefs base_schema,
    .ResolveAllOfs base_schema,
    .NewSchemaFromFile cfg.input (.ok openapi_schema),
    .ResolveRefs openapi_schema,
    .ResolveAllOfs openapi_schema,
    .NewDomain openapi_schema cc,
    .setPatternNames cc (patternNames cfg.extension_name),
    .build cc none,
    .MkdirAll cfg.filename 0o755 none,
    .generateProto cc cfg.proto_packagename LICENSE (protoOptions cfg.proto_packagename) proto,
    .WriteFile (cfg.filename ++ "/" ++ cfg.filename ++ ".proto") proto 0o644 none,
    .generateCompiler cc (strings_Replace cfg.proto_packagename "." "_") LICENSE compiler,
    .WriteFile (cfg.filename ++ "/" ++ cfg.filename ++ ".go") compiler 0o644 none,
    .Run (goroot ++ "/bin/gofmt") ["-w", cfg.filename ++ "/" ++ cfg.filename ++ ".go"] fmtErr ]

/-- Calls up to the resolution of the base schema. -/
def baseSteps (base_schema : S) : List (Event S D E) :=
  [ .NewSchemaFromFile "schema.json" (.ok base_schema),
    .ResolveRefs base_schema,
    .ResolveAllOfs base_schema ]

/-- Calls up to the assignment of the pattern table. -/
def domainSteps (cfg : Config) (base_schema openapi_schema : S) (cc : D) :
    List (Event S D E) :=
  baseSteps base_schema ++
  [ .NewSchemaFromFile cfg.input (.ok openapi_schema),
    .ResolveRefs openapi_schema,
    .ResolveAllOfs openapi_schema,
    .NewDomain openapi_schema cc,
    .setPatternNames cc (patternNames cfg.extension_name) ]

/-- Calls from the generation of the proto text to the attempt to write it. -/
def protoSteps (cfg : Config) (cc : D) (proto : String) (err : Option E) :
    List (Event S D E) :=
  [ .generateProto cc cfg.proto_packagename LICENSE (protoOptions cfg.proto_packagename) proto,
    .WriteFile (cfg.filename ++ "/" ++ cfg.filename ++ ".proto") proto 0o644 err ]

/-- Calls from the generation of the compiler text to the attempt to write it. -/
def compilerSteps (cfg : Config) (cc : D) (compiler : String) (err : Option E) :
    List (Event S D E) :=
  [ .generateCompiler cc (strings_Replace cfg.proto_packagename "." "_") LICENSE compiler,
    .WriteFile (cfg.filename ++ "/" ++ cfg.filename ++ ".go") compiler 0o644 err ]

/-- The ways a run of `main` can go: how it ends and the calls it made. -/
inductive RunShape (cfg : Config) : Outcome E → List (Event S D E) → Prop
  | baseFailed (err : E) :
    RunShape cfg (.panicked err) [.NewSchemaFromFile "schema.json" (.error err)]
  | inputFailed (base_schema : S) (err : E) :
    RunShape cfg (.panicked err)
      (baseSteps base_schema ++ [.NewSchemaFromFile cfg.input (.error err)])
  | buildFailed (base_schema openapi_schema : S) (cc : D) (err : E) :
    RunShape cfg (.panicked err)
      (domainSteps cfg base_schema openapi_schema cc ++ [.build cc (some err)])
  | mkdirFailed (base_schema openapi_schema : S) (cc : D) (err : E) :
    RunShape cfg (.panicked err)
      (domainSteps cfg base_schema openapi_schema cc ++
        [.build cc none, .MkdirAll cfg.filename 0o755 (some err)])
  | protoWriteFailed (base_schema openapi_schema : S) (cc : D) (proto : String) (err : E) :
    RunShape cfg (.panicked err)
      (domainSteps cfg base_schema openapi_schema cc ++
        [.build cc none, .MkdirAll cfg.filename 0o755 none] ++
        protoSteps cfg cc proto (some err))
  | goWriteFailed (base_schema openapi_schema : S) (cc : D) (proto compiler : String)
      (err : E) :
    RunShape cfg (.panicked err)
      (domainSteps cfg base_schema openapi_schema cc ++
        [.build cc none, .MkdirAll cfg.filename 0o755 none] ++
        protoSteps cfg cc proto none ++ compilerSteps cfg cc compiler (some err))
  | completed (base_schema openapi_schema : S) (cc : D) (proto compiler goroot : String)
      (fmtErr : Option E) :
    RunShape cfg .returned
      (completedTrace cfg base_schema openapi_schema cc proto compiler goroot fmtErr)

end Shapes

/-! ## Sample worlds -/

/-- A world without state in which every collaborator succeeds; schemas and
Domains are named by strings. -/
def okEnv : Env Unit String String String where
  NewSchemaFromFile filename w := (.ok ("schema:" ++ filename), w)
  ResolveRefs _ w := w
  ResolveAllOfs _ w := w
  NewDomain schema w := ("domain:" ++ schema, w)
  setPatternNames _ _ w := w
  build _ w := (none, w)
  MkdirAll _ _ w := (none, w)
  generateProto _ packageName _ _ w := ("package " ++ packageName, w)
  WriteFile _ _ _ w := (none, w)
  generateCompiler _ packageName _ w := ("package " ++ packageName, w)
  GOROOT _ := "/usr/local/go"
  Run _ _ w := (none, w)

/-- The world of `okEnv`, except that running a command fails (no `gofmt`
under the Go root, say). -/
def noGofmtEnv : Env Unit String String String :=
  { okEnv with Run := fun _ _ w => (some "no such file or directory", w) }

/-- The world of `okEnv`, except that `build` fails. -/
def buildFailsEnv : Env Unit String String String :=
  { okEnv with build := fun _ w => (some "unsupported schema", w) }

/-! ## Regular expressions of the pattern table -/

/-- Syntax trees for the fragment of Go (RE2) regular expressions that the
pattern table uses. -/
inductive Regex where
  /-- a literal character -/
  | lit (c : Char)
  /-- a character class `[lo-hi]` -/
  | range (lo hi : Char)
  /-- `^`, beginning of text (no multi-line flag) -/
  | bot
  /-- `$`, end of text (no multi-line flag) -/
  | eot
  /-- the empty expression -/
  | empty
  /-- concatenation -/
  | seq (a b : Regex)
  /-- alternation `a|b` -/
  | alt (a b : Regex)
  /-- counted repetition `a{n}` -/
  | rep (a : Regex) (n : Nat)
  /-- a capturing group `(a)` -/
  | group (a : Regex)
  deriving DecidableEq, Repr

/-- A parenthesis level being parsed: the alternatives already closed by a
`|` and the items of the concatenation in progress, most recent first. -/
structure Frame where
  alts : List Regex
  cur : List Regex

/-- Concatenation of items given most recent first. -/
def closeSeq : List Regex → Regex
  | [] => .empty
  | r :: items => items.foldl (fun acc x => .seq x acc) r

/-- The expression of a finished parenthesis level. -/
def Frame.close (f : Frame) : Regex :=
  f.alts.foldl (fun acc x => .alt x acc) (closeSeq f.cur)

/-- Characters with a meaning in the regular expression syntax that this
fragment does not cover. -/
def unsupportedMeta (c : Char) : Bool :=
  c = '\\' || c = '.' || c = '*' || c = '+' || c = '?' || c = ']' || c = '}'

/-- Parser of the fragment, one character class or operator at a time;
`none` for syntax errors and for syntax outside the fragment. -/
def parseLoop : List Char → Frame → List Frame → Option Regex
  | [], f, [] => some f.close
  | [], _, _ :: _ => none
  | '(' :: rest, f, stack => parseLoop rest ⟨[], []⟩ (f :: stack)
  | ')' :: rest, f, parent :: stack =>
    parseLoop rest { parent with cur := .group f.close :: parent.cur } stack
  | ')' :: _, _, [] => none
  | '|' :: rest, f, stack => parseLoop rest ⟨closeSeq f.cur :: f.alts, []⟩ stack
  | '^' :: rest, f, stack => parseLoop rest { f with cur := .bot :: f.cur } stack
  | '$' :: rest, f, stack => parseLoop rest { f with cur := .eot :: f.cur } stack
  | '[' :: lo :: '-' :: hi :: ']' :: rest, f, stack =>
    parseLoop rest { f with cur := .range lo hi :: f.cur } stack
  | '[' :: _, _, _ => none
  | '{' :: d :: '}' :: rest, f, stack =>
    match f.cur with
    | r :: items =>
      if d.isDigit then
        parseLoop rest { f with cur := .rep r (d.toNat - '0'.toNat) :: items } stack
      else none
    | [] => none
  | '{' :: _, _, _ => none
  | c :: rest, f, stack =>
    if unsupportedMeta c then none
    else parseLoop rest { f with cur := .lit c :: f.cur } stack

/-- Go's `regexp.Compile`, on the fragment. -/
def regexp_Compile (pattern : String) : Option Regex :=
  parseLoop pattern.data ⟨[], []⟩ []

/-- The ends of the matches of an expression that start at a given place:
a place is a position in the text together with the text from there on. -/
def Regex.ends : Regex → Nat × List Char → List (Nat × List Char)
  | .lit c, (p, x :: xs) => if x = c then [(p + 1, xs)] else []
  | .lit _, (_, []) => []
  | .range lo hi, (p, x :: xs) =>
    if lo.toNat ≤ x.toNat ∧ x.toNat ≤ hi.toNat then [(p + 1, xs)] else []
  | .range _ _, (_, []) => []
  | .bot, (p, xs) => if p = 0 then [(p, xs)] else []
  | .eot, (p, xs) => if xs = [] then [(p, xs)] else []
  | .empty, st => [st]
  | .seq a b, st => (a.ends st).flatMap (fun st1 => b.ends st1)
  | .alt a b, st => a.ends st ++ b.ends st
  | .rep a n, st => Nat.rec [st] (fun _ acc => acc.flatMap (fun st1 => a.ends st1)) n
  | .group a, st => a.ends st

/-- Go's `(*Regexp).MatchString`: whether the text contains a match,
starting at any position. -/
def Regex.MatchString (r : Regex) (text : String) : Bool :=
  (List.range (text.data.length + 1)).any
    (fun i => !(r.ends (i, text.data.drop i)).isEmpty)

/-- Go's `regexp.MatchString(pattern, text)`, `false` when the pattern does
not compile. -/
def MatchString (pattern text : String) : Bool :=
  match regexp_Compile pattern with
  | some r => r.MatchString text
  | none => false

/-- Modelled from the spec: the PropertyClassifier, whose code
(`generator/domain.go`) is not among the sources. Given a property name and
the (pattern, role) pairs in the order they are visited, it returns the role
of the first pattern that matches the name; a name matching no pattern is a
plain named field (`none`). -/
def classify (rules : List (String × String)) (name : String) : Option String :=
  match rules with
  | [] => none
  | (pattern, role) :: rest =>
    if MatchString pattern name then some role else classify rest name

/-! # Properties -/

set_option maxRecDepth 100000

section FlagLoop

theorem flagStep_succ (c : Config) (i : Nat) (arg : String) :
    flagStep c (i + 1) arg =
      if arg = "--v2" then v2Config else if arg = "--v3" then v3Config else c := by
  simp [flagStep, v2Config, v3Config]

theorem flagStep_zero (c : Config) (arg : String) : flagStep c 0 arg = c := by
  simp [flagStep]

theorem flagLoop_succ (rest : List String) : ∀ (c : Config) (i : Nat),
    flagLoop c (i + 1) rest = configAfter c ((rest.filter isVersionFlag).getLast?) := by
  induction rest with
  | nil => intro c i; rfl
  | cons a r ih =>
    intro c i
    rw [flagLoop, ih, flagStep_succ]
    by_cases h2 : a = "--v2"
    · subst h2
      cases hl : (r.filter isVersionFlag) with
      | nil => simp [List.filter_cons, isVersionFlag, hl, configAfter]
      | cons b l =>
        simp [List.filter_cons, isVersionFlag, hl, configAfter, List.getLast?_cons_cons,
          List.getLast?_eq_getLast (b :: l) (List.cons_ne_nil b l)]
    · by_cases h3 : a = "--v3"
      · subst h3
        cases hl : (r.filter isVersionFlag) with
        | nil => simp [List.filter_cons, isVersionFlag, hl, configAfter]
        | cons b l =>
        simp [List.filter_cons, isVersionFlag, hl, configAfter, List.getLast?_cons_cons,
          List.getLast?_eq_getLast (b :: l) (List.cons_ne_nil b l)]
      · simp [List.filter_cons, isVersionFlag, h2, h3]

theorem selectConfig_eq (args : List String) :
    selectConfig args = configAfter v2Config (lastVersionFlag args) := by
  cases args with
  | nil => rfl
  | cons a rest =>
    show flagLoop (flagStep defaultConfig 0 a) (0 + 1) rest = _
    rw [flagLoop_succ, flagStep_zero]
    rfl

theorem selectConfig_cases (args : List String) :
    selectConfig args = v2Config ∨ selectConfig args = v3Config := by
  rw [selectConfig_eq]
  cases h : lastVersionFlag args with
  | none => simp [configAfter]
  | some f =>
    by_cases h3 : f = "--v3"
    · simp [configAfter, h3]
    · simp [configAfter, h3]

/-- C1: the flag loop selects the v3 tuple exactly when the last argument
after the tool name that is `--v2` or `--v3` is `--v3`, and the v2 tuple
otherwise; the result is always one of the two tuples, never a mix; without
arguments, with the tool name alone, or with arguments none of which is a
version flag, it is the v2 tuple; the tool name is never read as a flag;
arguments other than the two flags are ignored. -/
theorem selectConfig_spec (args : List String) :
    (selectConfig args = v3Config ↔ lastVersionFlag args = some "--v3") ∧
    (selectConfig args = v2Config ↔ lastVersionFlag args ≠ some "--v3") ∧
    (selectConfig args = v2Config ∨ selectConfig args = v3Config) ∧
    selectConfig [] = v2Config ∧
    (∀ tool : String, selectConfig [tool] = v2Config) ∧
    (∀ (a b : String) (rest : List String),
      selectConfig (a :: rest) = selectConfig (b :: rest)) ∧
    (∀ (tool : String) (rest : List String),
      selectConfig (tool :: rest.filter (fun a => !isVersionFlag a)) = v2Config) ∧
    (∀ (tool : String) (rest : List String),
      selectConfig (tool :: rest) = selectConfig (tool :: rest.filter isVersionFlag)) := by
  have hne : v2Config ≠ v3Config := by decide
  refine ⟨?_, ?_, ?_, rfl, fun _ => rfl, ?_, ?_, ?_⟩
  · rw [selectConfig_eq]
    cases h : lastVersionFlag args with
    | none => simp [configAfter, hne]
    | some f =>
      by_cases h3 : f = "--v3"
      · simp [configAfter, h3]
      · simp [configAfter, h3, hne]
  · rw [selectConfig_eq]
    cases h : lastVersionFlag args with
    | none => simp [configAfter]
    | some f =>
      by_cases h3 : f = "--v3"
      · simp [configAfter, h3, hne.symm]
      · simp [configAfter, h3]
  · exact selectConfig_cases args
  · intro a b rest
    rw [selectConfig_eq, selectConfig_eq]; rfl
  · intro tool rest
    rw [selectConfig_eq]
    simp [lastVersionFlag, List.filter_filter, configAfter]
  · intro tool rest
    rw [selectConfig_eq, selectConfig_eq]
    simp [lastVersionFlag]

end FlagLoop

section Driver

variable {W S D E : Type}

theorem main_shape (env : Env W S D E) (args : List String) (w : W) :
    RunShape (selectConfig args) (main env args w).1 (main env args w).2.trace := by
  unfold main
  simp only [callNewSchemaFromFile, callResolveRefs, callResolveAllOfs, callNewDomain,
    callSetPatternNames, callBuild, callMkdirAll, callGenerateProto, callWriteFile,
    callGenerateCompiler, callRun]
  split
  · rename_i err st h
    simp only [Prod.mk.injEq] at h
    obtain ⟨h1, rfl⟩ := h
    simp only [h1, List.nil_append]
    exact RunShape.baseFailed err
  · rename_i base st h
    simp only [Prod.mk.injEq] at h
    obtain ⟨h1, rfl⟩ := h
    split
    · rename_i err st h
      simp only [Prod.mk.injEq] at h
      obtain ⟨h2, rfl⟩ := h
      simp only [h1, h2, List.nil_append, List.cons_append, List.append_assoc]
      exact RunShape.inputFailed base err
    · rename_i openapi st h
      simp only [Prod.mk.injEq] at h
      obtain ⟨h2, rfl⟩ := h
      split
      · rename_i err st h
        simp only [Prod.mk.injEq] at h
        obtain ⟨h3, rfl⟩ := h
        simp only [h1, h2, h3, List.nil_append, List.cons_append, List.append_assoc]
        exact RunShape.buildFailed base openapi _ err
      · rename_i st h
        simp only [Prod.mk.injEq] at h
        obtain ⟨h3, rfl⟩ := h
        split
        · rename_i err st h
          simp only [Prod.mk.injEq] at h
          obtain ⟨h4, rfl⟩ := h
          simp only [h1, h2, h3, h4, List.nil_append, List.cons_append, List.append_assoc]
          exact RunShape.mkdirFailed base openapi _ err
        · rename_i st h
          simp only [Prod.mk.injEq] at h
          obtain ⟨h4, rfl⟩ := h
          split
          · rename_i err st h
            simp only [Prod.mk.injEq] at h
            obtain ⟨h5, rfl⟩ := h
            simp only [h1, h2, h3, h4, h5, List.nil_append, List.cons_append, List.append_assoc]
            exact RunShape.protoWriteFailed base openapi _ _ err
          · rename_i st h
            simp only [Prod.mk.injEq] at h
            obtain ⟨h5, rfl⟩ := h
            split
            · rename_i err st h
              simp only [Prod.mk.injEq] at h
              obtain ⟨h6, rfl⟩ := h
              simp only [h1, h2, h3, h4, h5, h6, List.nil_append, List.cons_append,
                List.append_assoc]
              exact RunShape.goWriteFailed base openapi _ _ _ err
            · rename_i st h
              simp only [Prod.mk.injEq] at h
              obtain ⟨h6, rfl⟩ := h
              simp only [h1, h2, h3, h4, h5, h6, List.nil_append, List.cons_append,
                List.append_assoc]
              exact RunShape.completed base openapi _ _ _ _ _


theorem emitters_after (pre post : List (Event S D E)) (cc : D)
    (hpre : ∀ e ∈ pre, e.emitterOf? = none)
    (hpost : ∀ e ∈ post, ∀ c, e.emitterOf? = some c → c = cc) :
    ∀ ev ∈ pre ++ Event.build cc none :: post, ∀ c, ev.emitterOf? = some c →
      ∃ pre1 post1, pre ++ Event.build cc none :: post = pre1 ++ Event.build c none :: post1 ∧
        (∀ e ∈ pre1, e.emitterOf? = none) ∧ ev ∈ post1 ∧
        (∀ e ∈ post1, ∀ c1, e.emitterOf? = some c1 → c1 = c) := by
  intro ev hev c hc
  rcases List.mem_append.mp hev with hp | hp
  · rw [hpre ev hp] at hc; cases hc
  · rcases List.mem_cons.mp hp with rfl | hq
    · simp [Event.emitterOf?] at hc
    · have := hpost ev hq c hc
      subst this
      exact ⟨pre, post, rfl, hpre, hq, hpost⟩

theorem RunShape.emitters {cfg : Config} {out : Outcome E} {tr : List (Event S D E)}
    (h : RunShape cfg out tr) :
    ∀ ev ∈ tr, ∀ c, ev.emitterOf? = some c →
      ∃ pre post, tr = pre ++ Event.build c none :: post ∧
        (∀ e ∈ pre, e.emitterOf? = none) ∧ ev ∈ post ∧
        (∀ e ∈ post, ∀ c1, e.emitterOf? = some c1 → c1 = c) := by
  cases h with
  | baseFailed err =>
    intro ev hev c hc
    simp at hev; subst hev; simp [Event.emitterOf?] at hc
  | inputFailed base err =>
    intro ev hev c hc
    simp [baseSteps] at hev
    rcases hev with rfl | rfl | rfl | rfl <;> simp [Event.emitterOf?] at hc
  | buildFailed base openapi cc err =>
    intro ev hev c hc
    simp [baseSteps, domainSteps] at hev
    rcases hev with rfl | rfl | rfl | rfl | rfl | rfl | rfl | rfl | rfl <;>
      simp [Event.emitterOf?] at hc
  | mkdirFailed base openapi cc err =>
    exact emitters_after _ _ cc (by simp [baseSteps, domainSteps, Event.emitterOf?])
      (by simp [Event.emitterOf?])
  | protoWriteFailed base openapi cc proto err =>
    rw [List.append_assoc]
    exact emitters_after _ _ cc (by simp [baseSteps, domainSteps, Event.emitterOf?])
      (by simp [protoSteps, Event.emitterOf?])
  | goWriteFailed base openapi cc proto compiler err =>
    rw [List.append_assoc, List.append_assoc]
    exact emitters_after _ _ cc (by simp [baseSteps, domainSteps, Event.emitterOf?])
      (by simp [protoSteps, compilerSteps, Event.emitterOf?])
  | completed base openapi cc proto compiler goroot fmtErr =>
    exact emitters_after (domainSteps cfg base openapi cc) _ cc
      (by simp [baseSteps, domainSteps, Event.emitterOf?])
      (by simp [Event.emitterOf?])

end Driver

section DriverClaims

variable {W S D E : Type}

theorem RunShape.setPatternNames_eq {cfg : Config} {out : Outcome E}
    {tr : List (Event S D E)} (h : RunShape cfg out tr) (cc : D) (table : GoMap)
    (hm : Event.setPatternNames cc table ∈ tr) :
    table = patternNames cfg.extension_name := by
  cases h <;>
    simp [baseSteps, domainSteps, protoSteps, compilerSteps, completedTrace] at hm <;>
    exact hm.2

theorem split_two {α : Type} (l : List α) (n : Nat) (a b : α)
    (ha : l[n]? = some a) (hb : l[n + 1]? = some b) :
    l = l.take n ++ [a, b] ++ l.drop (n + 2) := by
  obtain ⟨hn, rfl⟩ := List.getElem?_eq_some.mp ha
  obtain ⟨hn1, rfl⟩ := List.getElem?_eq_some.mp hb
  have h1 : l.drop n = l[n] :: l.drop (n + 1) := List.drop_eq_getElem_cons hn
  have h2 : l.drop (n + 1) = l[n + 1] :: l.drop (n + 2) := List.drop_eq_getElem_cons hn1
  calc l = l.take n ++ l.drop n := (List.take_append_drop n l).symm
    _ = l.take n ++ [l[n], l[n + 1]] ++ l.drop (n + 2) := by rw [h1, h2]; simp

theorem RunShape.table_before_build {cfg : Config} {out : Outcome E}
    {tr : List (Event S D E)} (h : RunShape cfg out tr) (cc : D) (err : Option E)
    (hm : Event.build cc err ∈ tr) :
    ∃ pre post, tr = pre ++
      [Event.setPatternNames cc (patternNames cfg.extension_name), Event.build cc err] ++ post := by
  cases h with
  | baseFailed e => simp at hm
  | inputFailed base e => simp [baseSteps] at hm
  | buildFailed base openapi cc0 e =>
    simp [baseSteps, domainSteps] at hm
    obtain ⟨rfl, rfl⟩ := hm
    exact ⟨_, _, split_two _ 7 _ _ rfl rfl⟩
  | mkdirFailed base openapi cc0 e =>
    simp [baseSteps, domainSteps] at hm
    obtain ⟨rfl, rfl⟩ := hm
    exact ⟨_, _, split_two _ 7 _ _ rfl rfl⟩
  | protoWriteFailed base openapi cc0 proto e =>
    simp [baseSteps, domainSteps, protoSteps] at hm
    obtain ⟨rfl, rfl⟩ := hm
    exact ⟨_, _, split_two _ 7 _ _ rfl rfl⟩
  | goWriteFailed base openapi cc0 proto compiler e =>
    simp [baseSteps, domainSteps, protoSteps, compilerSteps] at hm
    obtain ⟨rfl, rfl⟩ := hm
    exact ⟨_, _, split_two _ 7 _ _ rfl rfl⟩
  | completed base openapi cc0 proto compiler goroot fmtErr =>
    simp [completedTrace] at hm
    obtain ⟨rfl, rfl⟩ := hm
    exact ⟨_, _, split_two _ 7 _ _ rfl rfl⟩

theorem RunShape.generateProto_args {cfg : Config} {out : Outcome E}
    {tr : List (Event S D E)} (h : RunShape cfg out tr) (cc : D)
    (pkg license : String) (opts : List ProtoOption) (result : String)
    (hm : Event.generateProto cc pkg license opts result ∈ tr) :
    pkg = cfg.proto_packagename ∧ license = LICENSE ∧ opts = protoOptions pkg := by
  cases h <;>
    simp [baseSteps, domainSteps, protoSteps, compilerSteps, completedTrace] at hm <;>
    (obtain ⟨-, rfl, rfl, rfl, -⟩ := hm; exact ⟨rfl, rfl, rfl⟩)

theorem RunShape.build_failed {cfg : Config} {out : Outcome E}
    {tr : List (Event S D E)} (h : RunShape cfg out tr) (cc : D) (err : E)
    (hm : Event.build cc (some err) ∈ tr) :
    out = .panicked err ∧ ∀ e ∈ tr, e.emitterOf? = none := by
  cases h <;>
    simp [baseSteps, domainSteps, protoSteps, compilerSteps, completedTrace] at hm
  obtain ⟨rfl, rfl⟩ := hm
  simp [baseSteps, domainSteps, Event.emitterOf?]

theorem RunShape.returned {cfg : Config} {out : Outcome E}
    {tr : List (Event S D E)} (h : RunShape cfg out tr) (hr : out = .returned) :
    ∃ base_schema openapi_schema cc proto compiler goroot fmtErr,
      tr = completedTrace cfg base_schema openapi_schema cc proto compiler goroot fmtErr := by
  cases h <;> first | exact ⟨_, _, _, _, _, _, _, rfl⟩ | cases hr

theorem RunShape.checked_errors {cfg : Config} {out : Outcome E}
    {tr : List (Event S D E)} (h : RunShape cfg out tr) :
    ∀ ev ∈ tr, ∀ e, ev.err? = some e → ev.isRun = false →
      out = .panicked e ∧ tr.getLast? = some ev := by
  cases h <;>
    simp [baseSteps, domainSteps, protoSteps, compilerSteps, completedTrace, Event.err?,
      Event.isRun]

/-- Companion to C5: an error returned by any call of `main` other than the
run of the formatter ends the run with a panic on that error, and the
failing call is the last one made. -/
theorem main_checked_errors (env : Env W S D E) (args : List String) (w : W) :
    ∀ ev ∈ (main env args w).2.trace, ∀ e, ev.err? = some e → ev.isRun = false →
      (main env args w).1 = .panicked e ∧ (main env args w).2.trace.getLast? = some ev :=
  (main_shape env args w).checked_errors

end DriverClaims

section Claims

variable {W S D E : Type}

/-- C2: the table assigned to `cc.PatternNames` holds exactly the three
patterns `^x-`, `^/` and `^([0-9]{3})$|^(default)$`; in a default run it is
the three pairs with the roles `vendorExtension`, `path`, `responseCode`;
for every argument list, looking a key up gives the selected extension name
for `^x-` (`specificationExtension` when the last version flag is `--v3`,
`vendorExtension` otherwise), `path` for `^/`, `responseCode` for the
response-code pattern and nothing for any other key; this is the table of
every `setPatternNames` call of a run, and that call comes right before
`build`. -/
theorem patternNames_contents (env : Env W S D E) (args : List String) (w : W) :
    patternNames (selectConfig []).extension_name =
      [("^x-", "vendorExtension"), ("^/", "path"),
        ("^([0-9]{3})$|^(default)$", "responseCode")] ∧
    (patternNames (selectConfig args).extension_name).map Prod.fst =
      ["^x-", "^/", "^([0-9]{3})$|^(default)$"] ∧
    (∀ key : String, GoMap.get (patternNames (selectConfig args).extension_name) key =
      if key = "^x-" then some (selectConfig args).extension_name
      else if key = "^/" then some "path"
      else if key = "^([0-9]{3})$|^(default)$" then some "responseCode"
      else none) ∧
    (selectConfig args).extension_name =
      (if lastVersionFlag args = some "--v3" then "specificationExtension"
        else "vendorExtension") ∧
    (∀ (cc : D) (table : GoMap),
      Event.setPatternNames cc table ∈ (main env args w).2.trace →
        table = patternNames (selectConfig args).extension_name) ∧
    (∀ (cc : D) (err : Option E), Event.build cc err ∈ (main env args w).2.trace →
      ∃ pre post, (main env args w).2.trace = pre ++
        [Event.setPatternNames cc (patternNames (selectConfig args).extension_name),
          Event.build cc err] ++ post) := by
  refine ⟨rfl, rfl, ?_, ?_, ?_, ?_⟩
  · intro key
    by_cases h1 : key = "^x-"
    · subst h1; simp [GoMap.get, patternNames]
    · by_cases h2 : key = "^/"
      · subst h2; simp [GoMap.get, patternNames, List.find?]
      · by_cases h3 : key = "^([0-9]{3})$|^(default)$"
        · subst h3; simp [GoMap.get, patternNames, List.find?]
        · have e1 : ¬ "^x-" = key := fun h => h1 h.symm
          have e2 : ¬ "^/" = key := fun h => h2 h.symm
          have e3 : ¬ "^([0-9]{3})$|^(default)$" = key := fun h => h3 h.symm
          simp [GoMap.get, patternNames, List.find?, h1, h2, h3, e1, e2, e3]
  · rw [selectConfig_eq]
    cases h : lastVersionFlag args with
    | none => simp [configAfter, v2Config]
    | some f =>
      by_cases h3 : f = "--v3"
      · simp [configAfter, h3, v3Config]
      · simp [configAfter, h3, v2Config]
  · exact fun cc table hm => (main_shape env args w).setPatternNames_eq cc table hm
  · exact fun cc err hm => (main_shape env args w).table_before_build cc err hm

theorem patternNames_contents_witness :
    (Event.setPatternNames "domain:schema:openapi-3.0.json"
        (patternNames "specificationExtension") ∈
      (main okEnv ["generator", "--v3"] ()).2.trace ∧
      patternNames "specificationExtension" =
        patternNames (selectConfig ["generator", "--v3"]).extension_name) ∧
    (Event.build "domain:schema:openapi-3.0.json" none ∈
      (main okEnv ["generator", "--v3"] ()).2.trace ∧
      ∃ pre post, (main okEnv ["generator", "--v3"] ()).2.trace = pre ++
        [Event.setPatternNames "domain:schema:openapi-3.0.json"
            (patternNames (selectConfig ["generator", "--v3"]).extension_name),
          Event.build "domain:schema:openapi-3.0.json" none] ++ post) :=
  ⟨⟨by decide,
    (patternNames_contents okEnv ["generator", "--v3"] ()).2.2.2.2.1
      "domain:schema:openapi-3.0.json" (patternNames "specificationExtension") (by decide)⟩,
   ⟨by decide,
    (patternNames_contents okEnv ["generator", "--v3"] ()).2.2.2.2.2
      "domain:schema:openapi-3.0.json" none (by decide)⟩⟩


/-- C3, as stated, fails: an enumeration of the table of a default run may
start with `^/` and end with `^x-`, so the order of the literal is not the
order every consumer sees. -/
theorem patternNames_order_not_fixed :
    GoMap.rangeOrder (patternNames (selectConfig ["generator"]).extension_name)
        [("^/", "path"), ("^([0-9]{3})$|^(default)$", "responseCode"),
          ("^x-", "vendorExtension")] ∧
      ¬ (∀ order : List (String × String),
        GoMap.rangeOrder (patternNames (selectConfig ["generator"]).extension_name) order →
          order = [("^x-", "vendorExtension"), ("^/", "path"),
            ("^([0-9]{3})$|^(default)$", "responseCode")]) := by
  refine ⟨by decide, fun h => ?_⟩
  have := h [("^/", "path"), ("^([0-9]{3})$|^(default)$", "responseCode"),
    ("^x-", "vendorExtension")] (by decide)
  exact absurd this (by decide)

theorem arrangements_rangeOrder (extension_name : String) :
    ∀ other ∈ patternNamesArrangements extension_name,
      GoMap.rangeOrder (patternNames extension_name) other := by
  intro other ho
  simp only [patternNamesArrangements, List.mem_cons, List.mem_singleton, List.not_mem_nil,
    or_false] at ho
  unfold GoMap.rangeOrder patternNames
  rcases ho with rfl | rfl | rfl | rfl | rfl | rfl
  · exact List.Perm.refl _
  · exact (List.Perm.swap _ _ []).cons _
  · exact List.Perm.swap _ _ _
  · exact ((List.Perm.swap _ _ []).cons _).trans (List.Perm.swap _ _ _)
  · exact (List.Perm.swap _ _ _).trans ((List.Perm.swap _ _ []).cons _)
  · exact ((List.Perm.swap _ _ []).cons _).trans
      ((List.Perm.swap _ _ _).trans ((List.Perm.swap _ _ []).cons _))

theorem rangeOrder_arrangements (extension_name : String)
    (order : List (String × String))
    (h : GoMap.rangeOrder (patternNames extension_name) order) :
    order ∈ patternNamesArrangements extension_name := by
  unfold GoMap.rangeOrder patternNames at h
  have hlen := h.length_eq
  have hnd : order.Nodup := h.nodup_iff.mpr (by simp)
  match order, hlen, hnd, h with
  | [a, b, c], _, hnd, h =>
    have ha : a ∈ _ := h.subset (List.mem_cons_self _ _)
    have hb : b ∈ _ := h.subset (List.mem_cons_of_mem _ (List.mem_cons_self _ _))
    have hc : c ∈ _ := h.subset
      (List.mem_cons_of_mem _ (List.mem_cons_of_mem _ (List.mem_cons_self _ _)))
    simp only [List.mem_cons, List.mem_singleton, List.not_mem_nil, or_false] at ha hb hc
    rcases ha with rfl | rfl | rfl <;> rcases hb with rfl | rfl | rfl <;>
      rcases hc with rfl | rfl | rfl <;>
      simp [patternNamesArrangements] at hnd ⊢

theorem arrangement_get (extension_name : String) (order : List (String × String))
    (ho : order ∈ patternNamesArrangements extension_name) (key : String) :
    GoMap.get order key = GoMap.get (patternNames extension_name) key := by
  simp only [patternNamesArrangements, List.mem_cons, List.mem_singleton, List.not_mem_nil,
    or_false] at ho
  by_cases h1 : key = "^x-"
  · subst h1
    rcases ho with rfl | rfl | rfl | rfl | rfl | rfl <;>
      simp [GoMap.get, patternNames, List.find?]
  · by_cases h2 : key = "^/"
    · subst h2
      rcases ho with rfl | rfl | rfl | rfl | rfl | rfl <;>
        simp [GoMap.get, patternNames, List.find?]
    · by_cases h3 : key = "^([0-9]{3})$|^(default)$"
      · subst h3
        rcases ho with rfl | rfl | rfl | rfl | rfl | rfl <;>
          simp [GoMap.get, patternNames, List.find?]
      · have e1 : ¬ "^x-" = key := fun h => h1 h.symm
        have e2 : ¬ "^/" = key := fun h => h2 h.symm
        have e3 : ¬ "^([0-9]{3})$|^(default)$" = key := fun h => h3 h.symm
        rcases ho with rfl | rfl | rfl | rfl | rfl | rfl <;>
          simp [GoMap.get, patternNames, List.find?, e1, e2, e3]

/-- C3, amended: the table handed to the Domain is a Go map of the three
pairs, not a sequence. A consumer enumerating it sees exactly these three
pairs, each once, in one of the six arrangements; no arrangement is
excluded; and whatever the arrangement, every key is found with the role
the map holds for it. -/
theorem patternNames_unordered (extension_name : String)
    (order : List (String × String))
    (h : GoMap.rangeOrder (patternNames extension_name) order) :
    order ∈ patternNamesArrangements extension_name ∧
    (∀ other ∈ patternNamesArrangements extension_name,
      GoMap.rangeOrder (patternNames extension_name) other) ∧
    (∀ key : String, GoMap.get order key = GoMap.get (patternNames extension_name) key) :=
  ⟨rangeOrder_arrangements extension_name order h,
    arrangements_rangeOrder extension_name,
    arrangement_get extension_name order (rangeOrder_arrangements extension_name order h)⟩

theorem patternNames_unordered_witness :
    GoMap.rangeOrder (patternNames "vendorExtension")
      [("^/", "path"), ("^x-", "vendorExtension"),
        ("^([0-9]{3})$|^(default)$", "responseCode")] ∧
    GoMap.get [("^/", "path"), ("^x-", "vendorExtension"),
        ("^([0-9]{3})$|^(default)$", "responseCode")] "^x-" =
      GoMap.get (patternNames "vendorExtension") "^x-" :=
  ⟨by decide,
    (patternNames_unordered "vendorExtension"
      [("^/", "path"), ("^x-", "vendorExtension"),
        ("^([0-9]{3})$|^(default)$", "responseCode")] (by decide)).2.2 "^x-"⟩

/-- C4: a run of `main` that completes makes its calls in the order of
`completedTrace`: the base schema is loaded and resolved, the input schema
is loaded, its references and then its all-of merges are resolved, the
Domain is made from that input schema, the pattern table is set, the Domain
is built, the directory is made, the proto text is generated and written,
the compiler text is generated and written, the formatter is run. In every
run, completed or not, an emitter call on a Domain comes after a `build` of
that Domain that returned no error, no emitter call comes before that
`build`, all emitter calls are on the same Domain, and after a failed
`build` there is no emitter call at all. -/
theorem main_order (env : Env W S D E) (args : List String) (w : W) :
    ((main env args w).1 = Outcome.returned →
      ∃ base_schema openapi_schema cc proto compiler goroot fmtErr,
        (main env args w).2.trace =
          completedTrace (selectConfig args) base_schema openapi_schema cc proto compiler
            goroot fmtErr) ∧
    (∀ ev ∈ (main env args w).2.trace, ∀ cc, ev.emitterOf? = some cc →
      ∃ pre post, (main env args w).2.trace = pre ++ Event.build cc none :: post ∧
        (∀ e ∈ pre, e.emitterOf? = none) ∧ ev ∈ post ∧
        (∀ e ∈ post, ∀ c, e.emitterOf? = some c → c = cc)) ∧
    (∀ (cc : D) (err : E), Event.build cc (some err) ∈ (main env args w).2.trace →
      (main env args w).1 = Outcome.panicked err ∧
        ∀ e ∈ (main env args w).2.trace, e.emitterOf? = none) :=
  ⟨fun hr => (main_shape env args w).returned hr,
    (main_shape env args w).emitters,
    fun cc err hm => (main_shape env args w).build_failed cc err hm⟩

theorem main_order_witness :
    ((main okEnv ["generator"] ()).1 = Outcome.returned ∧
      ∃ base_schema openapi_schema cc proto compiler goroot fmtErr,
        (main okEnv ["generator"] ()).2.trace =
          completedTrace (selectConfig ["generator"]) base_schema openapi_schema cc proto
            compiler goroot fmtErr) ∧
    (∃ pre post, (main okEnv ["generator"] ()).2.trace =
        pre ++ Event.build "domain:schema:openapi-2.0.json" none :: post ∧
      (∀ e ∈ pre, e.emitterOf? = none) ∧
      Event.generateCompiler "domain:schema:openapi-2.0.json" "openapi_v2" LICENSE
        "package openapi_v2" ∈ post ∧
      (∀ e ∈ post, ∀ c, e.emitterOf? = some c → c = "domain:schema:openapi-2.0.json")) ∧
    (Event.build "domain:schema:openapi-2.0.json" (some "unsupported schema") ∈
        (main buildFailsEnv ["generator"] ()).2.trace ∧
      (main buildFailsEnv ["generator"] ()).1 = Outcome.panicked "unsupported schema" ∧
      ∀ e ∈ (main buildFailsEnv ["generator"] ()).2.trace, e.emitterOf? = none) :=
  ⟨⟨by decide, (main_order okEnv ["generator"] ()).1 (by decide)⟩,
    (main_order okEnv ["generator"] ()).2.1
      (Event.generateCompiler "domain:schema:openapi-2.0.json" "openapi_v2" LICENSE
        "package openapi_v2") (by decide) "domain:schema:openapi-2.0.json" rfl,
    ⟨by decide,
      (main_order buildFailsEnv ["generator"] ()).2.2 "domain:schema:openapi-2.0.json"
        "unsupported schema" (by decide)⟩⟩

/-- C5, at the failing input: in a world where every step succeeds except
the formatter, whose `Run` returns an error, `main` returns normally; the
error of the last step is dropped. -/
theorem main_drops_gofmt_error :
    (main noGofmtEnv ["generator"] ()).1 = Outcome.returned ∧
    (main noGofmtEnv ["generator"] ()).2.trace.getLast? =
      some (Event.Run "/usr/local/go/bin/gofmt" ["-w", "OpenAPIv2/OpenAPIv2.go"]
        (some "no such file or directory")) := by
  decide

/-- C6: `protoOptions p` is four triples named `java_multiple_files`,
`java_outer_classname`, `java_package`, `objc_class_prefix`, in that order
and pairwise distinct; the value of `java_package` is `org.` followed by
`p`; apart from that value the result is the same for every package name;
and in every run the options passed to `generateProto` are those of the
package name passed as its first argument, so that its `java_package` is
`org.openapi.v2` or `org.openapi.v3` accordingly. -/
theorem protoOptions_spec (env : Env W S D E) (args : List String) (w : W)
    (p q : String) :
    (protoOptions p).length = 4 ∧
    (protoOptions p).map (fun o => o.Name) =
      ["java_multiple_files", "java_outer_classname", "java_package", "objc_class_prefix"] ∧
    ((protoOptions p).map (fun o => o.Name)).Nodup ∧
    optionValue "java_package" (protoOptions p) = some ("org." ++ p) ∧
    (protoOptions p).eraseIdx 2 = (protoOptions q).eraseIdx 2 ∧
    (protoOptions p).map (fun o => (o.Name, o.Comment)) =
      (protoOptions q).map (fun o => (o.Name, o.Comment)) ∧
    (∀ (cc : D) (pkg license : String) (opts : List ProtoOption) (result : String),
      Event.generateProto cc pkg license opts result ∈ (main env args w).2.trace →
        opts = protoOptions pkg ∧
        optionValue "java_package" opts = some ("org." ++ pkg) ∧
        (pkg = "openapi.v2" ∨ pkg = "openapi.v3")) := by
  refine ⟨rfl, rfl, by simp [protoOptions], by simp [optionValue, protoOptions, List.find?],
    rfl, rfl, ?_⟩
  intro cc pkg license opts result hm
  obtain ⟨hp, -, ho⟩ := (main_shape env args w).generateProto_args cc pkg license opts result hm
  refine ⟨ho, ?_, ?_⟩
  · rw [ho]; simp [optionValue, protoOptions, List.find?]
  · rw [hp]
    rcases selectConfig_cases args with h | h <;> rw [h]
    · exact Or.inl rfl
    · exact Or.inr rfl

theorem protoOptions_spec_witness :
    Event.generateProto "domain:schema:openapi-3.0.json" "openapi.v3" LICENSE
        (protoOptions "openapi.v3") "package openapi.v3" ∈
      (main okEnv ["generator", "--v3"] ()).2.trace ∧
    optionValue "java_package" (protoOptions "openapi.v3") = some ("org." ++ "openapi.v3") :=
  ⟨by decide,
    ((protoOptions_spec okEnv ["generator", "--v3"] () "openapi.v3" "openapi.v2").2.2.2.2.2.2
      "domain:schema:openapi-3.0.json" "openapi.v3" LICENSE (protoOptions "openapi.v3")
      "package openapi.v3" (by decide)).2.1⟩

/-- C7, at the failing inputs: for the v2 and for the v3 configuration the
value of `java_outer_classname` is `OpenAPIProto`, while the UpperCamelCase
form of the file name is `OpenAPIv2`, respectively `OpenAPIv3` (and
`OpenAPIv2Proto`, `OpenAPIv3Proto` with the extension). -/
theorem java_outer_classname_not_filename :
    optionValue "java_outer_classname"
        (protoOptions (selectConfig ["generator"]).proto_packagename) = some "OpenAPIProto" ∧
    upperCamelCase (selectConfig ["generator"]).filename = "OpenAPIv2" ∧
    upperCamelCase ((selectConfig ["generator"]).filename ++ ".proto") = "OpenAPIv2Proto" ∧
    optionValue "java_outer_classname"
        (protoOptions (selectConfig ["generator", "--v3"]).proto_packagename) =
      some "OpenAPIProto" ∧
    upperCamelCase (selectConfig ["generator", "--v3"]).filename = "OpenAPIv3" ∧
    upperCamelCase ((selectConfig ["generator", "--v3"]).filename ++ ".proto") =
      "OpenAPIv3Proto" ∧
    optionValue "java_outer_classname"
        (protoOptions (selectConfig ["generator"]).proto_packagename) ≠
      some (upperCamelCase (selectConfig ["generator"]).filename) ∧
    optionValue "java_outer_classname"
        (protoOptions (selectConfig ["generator", "--v3"]).proto_packagename) ≠
      some (upperCamelCase (selectConfig ["generator", "--v3"]).filename) := by
  decide

end Claims


section Patterns

theorem mem_ends_lit (c : Char) (st e : Nat × List Char) :
    e ∈ (Regex.lit c).ends st ↔ st.2 = c :: e.2 ∧ e.1 = st.1 + 1 := by
  obtain ⟨p, cs⟩ := st
  obtain ⟨q, rest⟩ := e
  cases cs with
  | nil => simp [Regex.ends]
  | cons x xs =>
    by_cases hx : x = c
    · simp [Regex.ends, hx]; tauto
    · simp [Regex.ends, hx]

theorem mem_ends_range (lo hi : Char) (st e : Nat × List Char) :
    e ∈ (Regex.range lo hi).ends st ↔
      ∃ x, st.2 = x :: e.2 ∧ (lo.toNat ≤ x.toNat ∧ x.toNat ≤ hi.toNat) ∧ e.1 = st.1 + 1 := by
  obtain ⟨p, cs⟩ := st
  obtain ⟨q, rest⟩ := e
  cases cs with
  | nil => simp [Regex.ends]
  | cons x xs =>
    by_cases hx : lo.toNat ≤ x.toNat ∧ x.toNat ≤ hi.toNat
    · simp [Regex.ends, hx]; tauto
    · simp only [Regex.ends, hx, if_false, List.not_mem_nil, false_iff]
      rintro ⟨y, hy, hr, -⟩
      simp only [List.cons.injEq] at hy
      obtain ⟨rfl, -⟩ := hy
      exact hx hr

theorem mem_ends_bot (st e : Nat × List Char) :
    e ∈ Regex.bot.ends st ↔ st.1 = 0 ∧ e = st := by
  obtain ⟨p, cs⟩ := st
  by_cases hp : p = 0 <;> simp [Regex.ends, hp]

theorem mem_ends_eot (st e : Nat × List Char) :
    e ∈ Regex.eot.ends st ↔ st.2 = [] ∧ e = st := by
  obtain ⟨p, cs⟩ := st
  by_cases hp : cs = [] <;> simp [Regex.ends, hp]

theorem mem_ends_seq (a b : Regex) (st e : Nat × List Char) :
    e ∈ (Regex.seq a b).ends st ↔ ∃ mid, mid ∈ a.ends st ∧ e ∈ b.ends mid := by
  simp [Regex.ends, List.mem_flatMap]

theorem mem_ends_alt (a b : Regex) (st e : Nat × List Char) :
    e ∈ (Regex.alt a b).ends st ↔ e ∈ a.ends st ∨ e ∈ b.ends st := by
  simp [Regex.ends]

theorem mem_ends_group (a : Regex) (st e : Nat × List Char) :
    e ∈ (Regex.group a).ends st ↔ e ∈ a.ends st := by
  simp [Regex.ends]

theorem mem_ends_rep_three (a : Regex) (st e : Nat × List Char) :
    e ∈ (Regex.rep a 3).ends st ↔
      ∃ m1, m1 ∈ a.ends st ∧ ∃ m2, m2 ∈ a.ends m1 ∧ e ∈ a.ends m2 := by
  show e ∈ (([st].flatMap fun s => a.ends s).flatMap fun s => a.ends s).flatMap
    (fun s => a.ends s) ↔ _
  simp only [List.mem_flatMap, List.mem_singleton]
  constructor
  · rintro ⟨m2, ⟨m1, ⟨s, rfl, h1⟩, h2⟩, h3⟩
    exact ⟨m1, h1, m2, h2, h3⟩
  · rintro ⟨m1, h1, m2, h2, h3⟩
    exact ⟨m2, ⟨m1, ⟨st, rfl, h1⟩, h2⟩, h3⟩

theorem MatchString_iff (r : Regex) (text : String) :
    r.MatchString text = true ↔
      ∃ i, i ≤ text.data.length ∧ ∃ e, e ∈ r.ends (i, text.data.drop i) := by
  simp only [Regex.MatchString, List.any_eq_true, List.mem_range, Bool.not_eq_true',
    List.isEmpty_eq_false, Nat.lt_succ_iff]
  constructor
  · rintro ⟨i, hi, hne⟩
    exact ⟨i, hi, List.exists_mem_of_ne_nil _ hne⟩
  · rintro ⟨i, hi, e, he⟩
    exact ⟨i, hi, List.ne_nil_of_mem he⟩

theorem isDigit_iff (c : Char) :
    c.isDigit = true ↔ '0'.toNat ≤ c.toNat ∧ c.toNat ≤ '9'.toNat := by
  simp [Char.isDigit, Char.toNat, UInt32.le_def, Fin.le_def]
  rfl

theorem compile_extension :
    regexp_Compile "^x-" = some (.seq .bot (.seq (.lit 'x') (.lit '-'))) := by decide

theorem compile_path : regexp_Compile "^/" = some (.seq .bot (.lit '/')) := by decide

theorem compile_responseCode :
    regexp_Compile "^([0-9]{3})$|^(default)$" =
      some (.alt
        (.seq .bot (.seq (.group (.rep (.range '0' '9') 3)) .eot))
        (.seq .bot (.seq
          (.group (.seq (.lit 'd') (.seq (.lit 'e') (.seq (.lit 'f') (.seq (.lit 'a')
            (.seq (.lit 'u') (.seq (.lit 'l') (.lit 't'))))))))
          .eot))) := by decide

theorem MatchString_extension (name : String) :
    MatchString "^x-" name = true ↔ "x-".data <+: name.data := by
  unfold MatchString
  rw [compile_extension]
  simp only [MatchString_iff, mem_ends_seq, mem_ends_bot, mem_ends_lit]
  constructor
  · rintro ⟨i, -, e, mid, ⟨hi, rfl⟩, m2, ⟨h1, -⟩, h2, -⟩
    simp only at hi h1 h2
    subst hi
    rw [List.drop_zero] at h1
    exact ⟨e.2, by rw [h1, h2]; rfl⟩
  · rintro ⟨rest, hr⟩
    refine ⟨0, Nat.zero_le _, (2, rest), (0, name.data), ⟨rfl, rfl⟩, (1, '-' :: rest),
      ⟨?_, rfl⟩, rfl, rfl⟩
    exact hr.symm

theorem MatchString_path (name : String) :
    MatchString "^/" name = true ↔ "/".data <+: name.data := by
  unfold MatchString
  rw [compile_path]
  simp only [MatchString_iff, mem_ends_seq, mem_ends_bot, mem_ends_lit]
  constructor
  · rintro ⟨i, -, e, mid, ⟨hi, rfl⟩, h1, -⟩
    simp only at hi h1
    subst hi
    rw [List.drop_zero] at h1
    exact ⟨e.2, by rw [h1]; rfl⟩
  · rintro ⟨rest, hr⟩
    exact ⟨0, Nat.zero_le _, (1, rest), (0, name.data), ⟨rfl, rfl⟩, hr.symm, rfl⟩

theorem MatchString_responseCode (name : String) :
    MatchString "^([0-9]{3})$|^(default)$" name = true ↔
      (name.data.length = 3 ∧ ∀ c ∈ name.data, c.isDigit = true) ∨
        name.data = "default".data := by
  unfold MatchString
  rw [compile_responseCode]
  simp only [MatchString_iff, mem_ends_alt, mem_ends_seq, mem_ends_bot, mem_ends_eot,
    mem_ends_group, mem_ends_rep_three, mem_ends_range, mem_ends_lit]
  constructor
  · rintro ⟨i, -, e, h⟩
    rcases h with ⟨mid, ⟨hi, rfl⟩, m3, ⟨m1, ⟨x1, h1, r1, -⟩, m2, ⟨x2, h2, r2, -⟩, x3, h3, r3, -⟩,
        hend, -⟩ | ⟨mid, ⟨hi, rfl⟩, m, hl, hend, -⟩
    · simp only at hi h1
      subst hi
      rw [List.drop_zero] at h1
      left
      rw [h1, h2, h3, hend]
      simp only [List.length_cons, List.length_nil, List.mem_cons, List.mem_singleton,
        List.not_mem_nil, or_false, isDigit_iff, true_and]
      rintro c (rfl | rfl | rfl)
      exacts [r1, r2, r3]
    · simp only at hi hl
      subst hi
      rw [List.drop_zero] at hl
      obtain ⟨m1, ⟨h1, -⟩, m2, ⟨h2, -⟩, m3, ⟨h3, -⟩, m4, ⟨h4, -⟩, m5, ⟨h5, -⟩, m6, ⟨h6, -⟩,
        h7, -⟩ := hl
      right
      rw [h1, h2, h3, h4, h5, h6, h7, hend]
  · rintro (⟨hlen, hd⟩ | hdef)
    · obtain ⟨a, b, c, habc⟩ := List.length_eq_three.mp hlen
      have ha := (isDigit_iff a).mp (hd a (by simp [habc]))
      have hb := (isDigit_iff b).mp (hd b (by simp [habc]))
      have hc := (isDigit_iff c).mp (hd c (by simp [habc]))
      exact ⟨0, Nat.zero_le _, (3, []), Or.inl ⟨(0, name.data), ⟨rfl, rfl⟩, (3, []),
        ⟨(1, [b, c]), ⟨a, habc, ha, rfl⟩, (2, [c]), ⟨b, rfl, hb, rfl⟩, c, rfl, hc, rfl⟩,
        rfl, rfl⟩⟩
    · exact ⟨0, Nat.zero_le _, (7, []), Or.inr ⟨(0, name.data), ⟨rfl, rfl⟩, (7, []),
        ⟨(1, "efault".data), ⟨hdef, rfl⟩, (2, "fault".data), ⟨rfl, rfl⟩,
          (3, "ault".data), ⟨rfl, rfl⟩, (4, "ult".data), ⟨rfl, rfl⟩,
          (5, "lt".data), ⟨rfl, rfl⟩, (6, "t".data), ⟨rfl, rfl⟩, rfl, rfl⟩,
        rfl, rfl⟩⟩

theorem not_extension_and_path (name : String) :
    ¬ (MatchString "^x-" name = true ∧ MatchString "^/" name = true) := by
  rw [MatchString_extension, MatchString_path]
  rintro ⟨⟨r1, h1⟩, ⟨r2, h2⟩⟩
  rw [← h1] at h2
  exact absurd (List.cons.inj h2).1 (by decide)

theorem not_extension_and_responseCode (name : String) :
    ¬ (MatchString "^x-" name = true ∧
      MatchString "^([0-9]{3})$|^(default)$" name = true) := by
  rw [MatchString_extension, MatchString_responseCode]
  rintro ⟨⟨r1, h1⟩, (⟨-, hd⟩ | hdef)⟩
  · have := hd 'x' (by rw [← h1]; exact List.mem_cons_self _ _)
    exact absurd this (by decide)
  · rw [← h1] at hdef
    exact absurd (List.cons.inj hdef).1 (by decide)

theorem not_path_and_responseCode (name : String) :
    ¬ (MatchString "^/" name = true ∧
      MatchString "^([0-9]{3})$|^(default)$" name = true) := by
  rw [MatchString_path, MatchString_responseCode]
  rintro ⟨⟨r1, h1⟩, (⟨-, hd⟩ | hdef)⟩
  · have := hd '/' (by rw [← h1]; exact List.mem_cons_self _ _)
    exact absurd this (by decide)
  · rw [← h1] at hdef
    exact absurd (List.cons.inj hdef).1 (by decide)

theorem classify_arrangement (extension_name name : String)
    (order : List (String × String))
    (ho : order ∈ patternNamesArrangements extension_name) :
    classify order name = classify (patternNames extension_name) name := by
  have hxp := not_extension_and_path name
  have hxr := not_extension_and_responseCode name
  have hpr := not_path_and_responseCode name
  simp only [patternNamesArrangements, List.mem_cons, List.mem_singleton, List.not_mem_nil,
    or_false] at ho
  cases hx : MatchString "^x-" name <;> cases hp : MatchString "^/" name <;>
    cases hr : MatchString "^([0-9]{3})$|^(default)$" name <;>
    simp [hx, hp, hr] at hxp hxr hpr <;>
    rcases ho with rfl | rfl | rfl | rfl | rfl | rfl <;>
    simp [classify, patternNames, hx, hp, hr]

/-- C8: `^x-` matches exactly the names that start with `x-`, `^/` exactly
those that start with `/`, and `^([0-9]{3})$|^(default)$` exactly the names
of three decimal digits and the name `default`; at most one of the three
patterns of the table matches a given name; and the role the classifier
gives a name is the same for every order in which the map is enumerated. -/
theorem patterns_exclusive (extension_name name : String)
    (order : List (String × String))
    (h : GoMap.rangeOrder (patternNames extension_name) order) :
    (MatchString "^x-" name = true ↔ "x-".toList <+: name.toList) ∧
    (MatchString "^/" name = true ↔ "/".toList <+: name.toList) ∧
    (MatchString "^([0-9]{3})$|^(default)$" name = true ↔
      (name.length = 3 ∧ ∀ c ∈ name.toList, c.isDigit = true) ∨ name = "default") ∧
    ((patternNames extension_name).filter (fun kv => MatchString kv.1 name)).length ≤ 1 ∧
    classify order name = classify (patternNames extension_name) name := by
  refine ⟨MatchString_extension name, MatchString_path name, ?_, ?_,
    classify_arrangement extension_name name order
      (rangeOrder_arrangements extension_name order h)⟩
  · rw [MatchString_responseCode, String.ext_iff]
    rfl
  · have hxp := not_extension_and_path name
    have hxr := not_extension_and_responseCode name
    have hpr := not_path_and_responseCode name
    cases hx : MatchString "^x-" name <;> cases hp : MatchString "^/" name <;>
      cases hr : MatchString "^([0-9]{3})$|^(default)$" name <;>
      simp [hx, hp, hr] at hxp hxr hpr <;>
      simp [patternNames, List.filter, hx, hp, hr]

theorem patterns_exclusive_witness :
    GoMap.rangeOrder (patternNames "specificationExtension")
        [("^([0-9]{3})$|^(default)$", "responseCode"), ("^/", "path"),
          ("^x-", "specificationExtension")] ∧
      classify [("^([0-9]{3})$|^(default)$", "responseCode"), ("^/", "path"),
          ("^x-", "specificationExtension")] "x-internal" =
        classify (patternNames "specificationExtension") "x-internal" :=
  ⟨by decide,
    (patterns_exclusive "specificationExtension" "x-internal"
      [("^([0-9]{3})$|^(default)$", "responseCode"), ("^/", "path"),
        ("^x-", "specificationExtension")] (by decide)).2.2.2.2⟩

end Patterns

end Generator
